import Mathlib

/-!
Verification development for the test-run execution and multi-parameter
weighted evaluation engine of the agent-test-suite backend.

The definitions below are shallow embeddings of the Python sources:
* `aggregate` models the weighted-average overall-score computation in
  `TestRunExecutionService.execute_test_run`
  (backend/app/services/test_execution_service.py, lines 216-240);
* the parsing functions model `LLMJudgeService._parse_parameter_response`
  (backend/app/services/llm_judge_service.py, lines 741-808);
* the run-loop functions model the chunked batch loop of `execute_test_run`;
* `detectIntentWithMessageSequence` models
  `DialogflowService.detect_intent_with_message_sequence`.

Remote calls (Dialogflow, Gemini) are modelled as oracle parameters; machine
integers are `Int`/`Nat` (Python integers are unbounded, so no wrap-around is
needed); Python `round` on the exact rational quotient is `pyRound`
(round half to even); Python `int(a / b)` on the exact quotient is `Int.tdiv`
(truncation toward zero).
-/

/-- Python `round` applied to an exact rational value: round half to even. -/
def pyRound (q : ℚ) : ℤ :=
  let f : ℤ := ⌊q⌋
  let r : ℚ := q - f
  if r < 1/2 then f
  else if (1/2 : ℚ) < r then f + 1
  else if f % 2 = 0 then f else f + 1

/-- One entry of `eval_result["parameter_scores"]` as consumed by
`execute_test_run`: the fields `"score"` and `"weight"` read at lines 234-236
(both may be `None` in Python, hence `Option`). -/
structure ParamScore where
  score : Option ℤ
  weight : Option ℤ
deriving DecidableEq, Repr

/-- The accumulation loop of `execute_test_run` lines 223-236: for each entry
whose score and weight are both non-`None`, add `score * weight` to
`total_weighted_score` and `weight` to `total_weight`. -/
def scoreAccum : List ParamScore → ℤ × ℤ
  | [] => (0, 0)
  | p :: ps =>
    let acc := scoreAccum ps
    match p.score, p.weight with
    | some s, some w => (s * w + acc.1, w + acc.2)
    | _, _ => acc

/-- The derived overall score of a TestResult, from `execute_test_run`
lines 216-240: `None` when the parameter-score list is empty, otherwise
`round(total_weighted_score / total_weight)` when `total_weight > 0`,
and `None` when `total_weight` is not positive. -/
def aggregate (ps : List ParamScore) : Option ℤ :=
  if ps.isEmpty then none
  else
    let acc := scoreAccum ps
    if 0 < acc.2 then some (pyRound ((acc.1 : ℚ) / (acc.2 : ℚ))) else none

/-- The entries the spec's aggregation formula ranges over: those with
non-null score and non-null, nonzero weight (kept as `(score, weight)`). -/
def weightedEntries (ps : List ParamScore) : List (ℤ × ℤ) :=
  ps.filterMap fun p =>
    match p.score, p.weight with
    | some s, some w => if w = 0 then none else some (s, w)
    | _, _ => none

/-- `Σ (score_i × weight_i)` over the spec's entries. -/
def specNumerator (ps : List ParamScore) : ℤ :=
  ((weightedEntries ps).map fun e => e.1 * e.2).sum

/-- `Σ weight_i` over the spec's entries. -/
def specDenominator (ps : List ParamScore) : ℤ :=
  ((weightedEntries ps).map Prod.snd).sum

theorem scoreAccum_fst (ps : List ParamScore) :
    (scoreAccum ps).1 = specNumerator ps := by
  induction ps with
  | nil => simp [scoreAccum, specNumerator, weightedEntries]
  | cons p ps ih =>
    rcases hs : p.score with _ | s <;> rcases hw : p.weight with _ | w <;>
      simp [scoreAccum, specNumerator, weightedEntries, hs, hw,
        List.filterMap_cons] at ih ⊢
    · exact ih
    · exact ih
    · exact ih
    · by_cases hw0 : w = 0 <;>
        simp [hw0, ih, specNumerator, weightedEntries]

theorem scoreAccum_snd (ps : List ParamScore) :
    (scoreAccum ps).2 = specDenominator ps := by
  induction ps with
  | nil => simp [scoreAccum, specDenominator, weightedEntries]
  | cons p ps ih =>
    rcases hs : p.score with _ | s <;> rcases hw : p.weight with _ | w <;>
      simp [scoreAccum, specDenominator, weightedEntries, hs, hw,
        List.filterMap_cons] at ih ⊢
    · exact ih
    · exact ih
    · exact ih
    · by_cases hw0 : w = 0 <;>
        simp [hw0, ih, specDenominator, weightedEntries]

theorem specDenominator_nil : specDenominator [] = 0 := rfl

/-- C1: for every parameter-result set whose entries have non-null scores and
whose weights (over the entries with non-null, nonzero weight) sum to a
positive total, the overall score derived for a TestResult equals
`round(Σ(score_i × weight_i) / Σ(weight_i))` over exactly those entries. -/
theorem aggregate_eq_spec_formula (ps : List ParamScore)
    (h1 : ∀ p ∈ ps, p.score ≠ none)
    (h2 : 0 < specDenominator ps) :
    aggregate ps =
      some (pyRound ((specNumerator ps : ℚ) / (specDenominator ps : ℚ))) := by
  have hne : ps ≠ [] := by
    rintro rfl
    rw [specDenominator_nil] at h2
    exact lt_irrefl 0 h2
  unfold aggregate
  rw [if_neg (by simp [List.isEmpty_iff, hne])]
  simp only [scoreAccum_fst, scoreAccum_snd]
  rw [if_pos h2]

/-- Witness for C1, at the spec's own example: scores 80 and 90 with weights
80 and 20 aggregate to `round(8200/100) = 82`. -/
theorem aggregate_eq_spec_formula_witness :
    aggregate [⟨some 80, some 80⟩, ⟨some 90, some 20⟩] = some 82 := by
  have h := aggregate_eq_spec_formula
    [⟨some 80, some 80⟩, ⟨some 90, some 20⟩]
    (by decide) (by decide)
  rw [h]
  have hnum : specNumerator [⟨some 80, some 80⟩, ⟨some 90, some 20⟩] = 8200 := by
    decide
  have hden : specDenominator [⟨some 80, some 80⟩, ⟨some 90, some 20⟩] = 100 := by
    decide
  rw [hnum, hden]
  norm_num [pyRound]

/-- C2: aggregation over an empty parameter-result set, or one in which every
weight is zero, yields `None` (no overall score), never `0`. -/
theorem aggregate_none_of_empty_or_all_zero (ps : List ParamScore)
    (h : ps = [] ∨ ∀ p ∈ ps, p.weight = some 0) :
    aggregate ps = none := by
  rcases h with rfl | hall
  · rfl
  · have hsnd : (scoreAccum ps).2 = 0 := by
      rw [scoreAccum_snd]
      have hwe : weightedEntries ps = [] := by
        unfold weightedEntries
        rw [List.filterMap_eq_nil_iff]
        intro p hp
        rcases hs : p.score with _ | s
        · simp [hs]
        · simp [hs, hall p hp]
      simp [specDenominator, hwe]
    unfold aggregate
    rcases ps with _ | ⟨p, ps'⟩
    · rfl
    · simp [hsnd]

/-- Witness for C2: `aggregate([]) = None` and
`aggregate([{score: 5, weight: 0}]) = None`. -/
theorem aggregate_none_witness :
    aggregate [] = none ∧ aggregate [⟨some 5, some 0⟩] = none :=
  ⟨aggregate_none_of_empty_or_all_zero [] (Or.inl rfl),
   aggregate_none_of_empty_or_all_zero [⟨some 5, some 0⟩]
     (Or.inr (by decide))⟩

/-! ### Parameter-response parsing (`_parse_parameter_response`) -/

/-- Python `str.isspace` over the ASCII fragment, the characters stripped by
`str.strip()`. -/
def pyIsSpace (c : Char) : Bool :=
  c = ' ' || c = '\t' || c = '\n' || c = '\r' || c = '\x0b' || c = '\x0c'

/-- Python `str.strip()` (ASCII fragment) on a character list. -/
def pyStripL (cs : List Char) : List Char :=
  ((cs.dropWhile pyIsSpace).reverse.dropWhile pyIsSpace).reverse

/-- Python `str.strip()` (ASCII fragment). -/
def pyStrip (s : String) : String :=
  (pyStripL s.toList).asString

/-- Python `str.split('\n')`. -/
def splitOnNewline : List Char → List (List Char)
  | [] => [[]]
  | c :: rest =>
    match splitOnNewline rest with
    | [] => [[c]]
    | g :: gs => if c = '\n' then [] :: g :: gs else (c :: g) :: gs

/-- Python `str.replace(pat, '')` for a non-empty pattern: delete every
non-overlapping occurrence, left to right.  `fuel` bounds recursion depth
(each step consumes at least one character). -/
def deleteAllF : ℕ → List Char → List Char → List Char
  | 0, _, cs => cs
  | _ + 1, _, [] => []
  | fuel + 1, pat, c :: rest =>
    if pat.isPrefixOf (c :: rest) then
      deleteAllF fuel pat ((c :: rest).drop pat.length)
    else c :: deleteAllF fuel pat rest

/-- Python `' '.flatten(xs)`. -/
def joinSpace : List String → String
  | [] => ""
  | [x] => x
  | x :: y :: xs => x ++ " " ++ joinSpace (y :: xs)

/-- A word character in the sense of the regex `\b` boundary (`[A-Za-z0-9_]`,
the ASCII fragment of `\w`). -/
def isWordChar (c : Char) : Bool :=
  c.isAlphanum || c = '_'

/-- Value of a decimal digit string, as Python `int()` on the digits captured
by the regex group. -/
def digitsToNat (ds : List Char) : ℕ :=
  ds.foldl (fun n c => 10 * n + (c.toNat - 48)) 0

/-- Leftmost match of the regex `\b(\d+)\b` (`re.search` semantics): the first
maximal digit run whose left neighbour is absent or a non-word character and
whose right neighbour is absent or a non-word character.  `prev` is the
character preceding the current position; `fuel` bounds recursion depth (each
step consumes at least one character, so `length + 1` fuel never runs out). -/
def scanTok : ℕ → Option Char → List Char → Option ℕ
  | 0, _, _ => none
  | _ + 1, _, [] => none
  | fuel + 1, prev, c :: cs =>
    if c.isDigit then
      if (match prev with | none => true | some p => !isWordChar p) then
        let ds := (c :: cs).takeWhile Char.isDigit
        let rest := (c :: cs).dropWhile Char.isDigit
        match rest with
        | [] => some (digitsToNat ds)
        | d :: _ =>
          if isWordChar d then scanTok fuel (some c) rest
          else some (digitsToNat ds)
      else scanTok fuel (some c) cs
    else scanTok fuel (some c) cs

/-- `re.search(r'\b(\d+)\b', s)` followed by `int(match.group(1))`. -/
def findIntToken (cs : List Char) : Option ℕ :=
  scanTok (cs.length + 1) none cs

/-- The mutable locals of the `_parse_parameter_response` line loop:
`result['score']`, `score_found`, `reasoning_lines`, `result['parsing_errors']`. -/
structure ParseState where
  score : ℕ
  scoreFound : Bool
  reasoningLines : List String
  parsingErrors : List String
deriving DecidableEq, Repr

/-- One iteration of the `for line in lines` loop of
`_parse_parameter_response` (lines 755-786). -/
def parseLine (st : ParseState) (rawLine : List Char) : ParseState :=
  let line := pyStripL rawLine
  if "SCORE:".toList.isPrefixOf line then
    let scoreText := pyStripL (deleteAllF line.length "SCORE:".toList line)
    match findIntToken scoreText with
    | some raw =>
      let clamped := max 0 (min 100 raw)
      let st' := { st with score := clamped, scoreFound := true }
      if raw ≠ clamped then
        { st' with parsingErrors := st'.parsingErrors ++
            [s!"Score {raw} was clamped to {clamped} (valid range: 0-100)"] }
      else st'
    | none =>
      { st with parsingErrors :=
          st.parsingErrors ++ ["No numeric score found in SCORE line"] }
  else if "REASONING:".toList.isPrefixOf line then
    let reasoningText := pyStripL (deleteAllF line.length "REASONING:".toList line)
    if reasoningText ≠ [] then
      { st with reasoningLines := st.reasoningLines ++ [reasoningText.asString] }
    else st
  else if st.reasoningLines ≠ [] ∧ line ≠ [] then
    { st with reasoningLines := st.reasoningLines ++ [line.asString] }
  else st

/-- The full line loop: `lines = response_text.strip().split('\n')` folded
through `parseLine` from the initial state. -/
def parseLoop (responseText : String) : ParseState :=
  (splitOnNewline (pyStripL responseText.toList)).foldl parseLine ⟨0, false, [], []⟩

/-- The parsed result of `_parse_parameter_response`. -/
structure ParsedParam where
  score : ℕ
  reasoning : String
  parsingErrors : List String
deriving DecidableEq, Repr

/-- `_parse_parameter_response` (lines 741-808): the line loop followed by the
post-processing that compiles the reasoning, forces score 0 when no score was
found, and substitutes default reasoning text. -/
def parseParameterResponse (responseText : String) : ParsedParam :=
  let st := parseLoop responseText
  let res1 :=
    if st.reasoningLines ≠ [] then
      (joinSpace st.reasoningLines, st.parsingErrors)
    else if ¬ st.scoreFound then
      ("Could not parse LLM response - no structured output found",
       st.parsingErrors ++ ["No SCORE or REASONING sections found"])
    else ("No valid response received", st.parsingErrors)
  let res2 :=
    if ¬ st.scoreFound then (0, res1.2 ++ ["No valid score found in response"])
    else (st.score, res1.2)
  let res3 :=
    if pyStrip res1.1 = "" then
      ("No reasoning provided by LLM", res2.2 ++ ["No reasoning text found"])
    else (res1.1, res2.2)
  ⟨res2.1, res3.1, res3.2⟩

example : (parseParameterResponse "SCORE: 95\nREASONING: close").score = 95 := by
  decide

example : (parseParameterResponse "SCORE: 95\nREASONING: close").reasoning
    = "close" := by decide

theorem parseLine_score_le (st : ParseState) (l : List Char)
    (h : st.score ≤ 100) : (parseLine st l).score ≤ 100 := by
  unfold parseLine
  dsimp only
  split
  · split
    · split <;> simp [Nat.zero_max]
    · simpa using h
  · split
    · split <;> simpa using h
    · split <;> simpa using h

theorem foldl_parseLine_score_le (lines : List (List Char)) (st : ParseState)
    (h : st.score ≤ 100) : (lines.foldl parseLine st).score ≤ 100 := by
  induction lines generalizing st with
  | nil => simpa using h
  | cons l ls ih => exact ih _ (parseLine_score_le _ _ h)

theorem parseLoop_score_le (text : String) : (parseLoop text).score ≤ 100 :=
  foldl_parseLine_score_le _ _ (by simp)

/-- C3 counterexample: a Judge Model reply containing `SCORE: -5` is stored
with score 5 (the regex `\b(\d+)\b` cannot capture the minus sign) and with
no diagnostic note — not with score 0 and a note as the claim states. -/
theorem parse_negative_score_counterexample :
    (parseParameterResponse "SCORE: -5").score = 5 ∧
    ¬ (parseParameterResponse "SCORE: -5").score = 0 ∧
    (parseParameterResponse "SCORE: -5").parsingErrors = [] := by
  decide

/-- C3 (amended): parameter-response parsing extracts the first unsigned
integer token after `SCORE:` and clamps it to [0,100], recording clamping in
`parsing_errors`: `SCORE: 150` yields 100 with a diagnostic note; `SCORE: -5`
yields 5 (the minus sign is not part of the token) with no note; the stored
score never exceeds 100; and if no parseable score exists the stored score is
0 with the failure recorded in `parsing_errors` — the parser is total and
never raises. -/
theorem parseParameterResponse_amended :
    ((parseParameterResponse "SCORE: 150\nREASONING: ok").score = 100 ∧
      (parseParameterResponse "SCORE: 150\nREASONING: ok").parsingErrors =
        ["Score 150 was clamped to 100 (valid range: 0-100)"]) ∧
    ((parseParameterResponse "SCORE: -5").score = 5 ∧
      (parseParameterResponse "SCORE: -5").parsingErrors = []) ∧
    (∀ text : String, (parseParameterResponse text).score ≤ 100) ∧
    (∀ text : String, (parseLoop text).scoreFound = false →
      (parseParameterResponse text).score = 0 ∧
      "No valid score found in response" ∈
        (parseParameterResponse text).parsingErrors) := by
  refine ⟨by decide, by decide, ?_, ?_⟩
  · intro text
    unfold parseParameterResponse
    by_cases hf : (parseLoop text).scoreFound
    · simpa [hf] using parseLoop_score_le text
    · simp [hf]
  · intro text h
    constructor
    · simp [parseParameterResponse, h]
    · simp only [parseParameterResponse, h]
      repeat' split
      all_goals simp_all

/-- Witness for the amended C3 theorem, at a reply with no parseable score. -/
theorem parseParameterResponse_amended_witness :
    (parseParameterResponse "hello").score = 0 ∧
    "No valid score found in response" ∈
      (parseParameterResponse "hello").parsingErrors :=
  parseParameterResponse_amended.2.2.2 "hello" (by decide)

/-! ### Per-parameter evaluation and the availability probe -/

/-- The authentication/availability flags set on the evaluator instance at
construction time by `_configure_gemini_auth` and `_test_model_availability`
(the one-time accessibility probe). -/
structure JudgeService where
  authConfigured : Bool
  modelAvailable : Bool
deriving DecidableEq, Repr

/-- `_evaluate_single_parameter` (lines 584-640), with the remote
`generate_content` call abstracted as the oracle `gen` (`.ok reply` for a
successful call, `.error msg` for a raised exception).  The second component
records whether the remote invocation was attempted.  The source consults
neither `auth_configured` nor `model_available` on this path: the remote call
is always attempted, and a raised exception is converted to a score-0 result
whose reasoning carries the error message. -/
def evaluateSingleParameter (svc : JudgeService) (gen : Except String String)
    (paramType : String) : ParsedParam × Bool :=
  match svc, gen with
  | _, .ok replyText => (parseParameterResponse replyText, true)
  | _, .error errorMsg =>
    (⟨0, s!"Error evaluating parameter {paramType}: {errorMsg}", []⟩, true)

/-- C4 counterexample: on an evaluator whose construction-time probe found the
model unavailable (`modelAvailable = false`), a per-parameter evaluation call
still attempts the remote invocation and uses its reply — it does not skip to
the fallback path. -/
theorem evaluateSingleParameter_probe_counterexample :
    (JudgeService.mk true false).modelAvailable = false ∧
    (evaluateSingleParameter ⟨true, false⟩
      (.ok "SCORE: 90\nREASONING: ok") "similarity_score").2 = true ∧
    (evaluateSingleParameter ⟨true, false⟩
      (.ok "SCORE: 90\nREASONING: ok") "similarity_score").1.score = 90 := by
  decide

/-- C4 (amended): a per-parameter evaluation call attempts the remote Judge
Model invocation regardless of the construction-time availability probe; a
successful reply is parsed, and a raised exception is converted to a score-0
result carrying the error message (not the heuristic fallback scorer). -/
theorem evaluateSingleParameter_amended (svc : JudgeService)
    (gen : Except String String) (pt : String) :
    (evaluateSingleParameter svc gen pt).2 = true ∧
    (∀ t, gen = .ok t →
      (evaluateSingleParameter svc gen pt).1 = parseParameterResponse t) ∧
    (∀ e, gen = .error e →
      (evaluateSingleParameter svc gen pt).1 =
        ⟨0, s!"Error evaluating parameter {pt}: {e}", []⟩) := by
  refine ⟨?_, ?_, ?_⟩
  · cases gen <;> rfl
  · rintro t rfl; rfl
  · rintro e rfl; rfl

/-- Witness for the amended C4 theorem, at a failing remote call on an
unavailable-model evaluator. -/
theorem evaluateSingleParameter_amended_witness :
    (evaluateSingleParameter ⟨true, false⟩ (.error "quota") "empathy_level").1 =
      ⟨0, "Error evaluating parameter empathy_level: quota", []⟩ := by
  have h := (evaluateSingleParameter_amended ⟨true, false⟩
    (.error "quota") "empathy_level").2.2 "quota" rfl
  rw [h]
  decide

/-! ### Message-sequence conversations (`detect_intent_with_message_sequence`) -/

/-- The per-turn payload surfaced by `detect_intent` that the message-sequence
code reads: `response_text` and the intent display name. -/
structure TurnResult where
  responseText : String
  intent : String
deriving DecidableEq, Repr

/-- One entry of the `all_responses` transcript (`type`, `message`,
`response`, `intent`). -/
structure SeqEntry where
  entryType : String
  message : String
  response : String
  intent : String
deriving DecidableEq, Repr

/-- One turn of a pre- or post-prompt loop in
`detect_intent_with_message_sequence`: issue the turn on the current session
state and append the tagged transcript entry. -/
def seqStep {σ : Type} (detect : σ → String → σ × TurnResult) (tag : String)
    (acc : σ × List SeqEntry) (m : String) : σ × List SeqEntry :=
  let r := detect acc.1 m
  (r.1, acc.2 ++ [⟨tag, m, r.2.responseText, r.2.intent⟩])

/-- `detect_intent_with_message_sequence` (lines 1741-1833): sequentially
issue all pre-prompt messages, then the main question, then all post-prompt
messages within one session (modelled by threading the session state `σ`
through the oracle `detect`), returning the full ordered transcript and the
main question's turn result as the primary outcome. -/
def detectIntentWithMessageSequence {σ : Type}
    (detect : σ → String → σ × TurnResult) (s0 : σ)
    (prePromptMessages : List String) (mainQuestion : String)
    (postPromptMessages : List String) : List SeqEntry × TurnResult :=
  let preStep := prePromptMessages.foldl (seqStep detect "pre_prompt") (s0, [])
  let mainR := detect preStep.1 mainQuestion
  let postStep := postPromptMessages.foldl (seqStep detect "post_prompt")
    (mainR.1,
     preStep.2 ++ [⟨"main_question", mainQuestion, mainR.2.responseText, mainR.2.intent⟩])
  (postStep.2, mainR.2)

/-- The session state after issuing `msgs` sequentially from `s0`. -/
def sessionAfter {σ : Type} (detect : σ → String → σ × TurnResult)
    (s0 : σ) (msgs : List String) : σ :=
  msgs.foldl (fun s m => (detect s m).1) s0

/-- The transcript entries produced by issuing `msgs` sequentially from `s`
under tag `tag`. -/
def turnEntries {σ : Type} (detect : σ → String → σ × TurnResult)
    (tag : String) : σ → List String → List SeqEntry
  | _, [] => []
  | s, m :: ms =>
    let r := detect s m
    ⟨tag, m, r.2.responseText, r.2.intent⟩ :: turnEntries detect tag r.1 ms

theorem foldl_seqStep {σ : Type} (detect : σ → String → σ × TurnResult)
    (tag : String) :
    ∀ (msgs : List String) (s0 : σ) (acc0 : List SeqEntry),
      msgs.foldl (seqStep detect tag) (s0, acc0) =
        (sessionAfter detect s0 msgs, acc0 ++ turnEntries detect tag s0 msgs) := by
  intro msgs
  induction msgs with
  | nil => intro s0 acc0; simp [sessionAfter, turnEntries]
  | cons m ms ih =>
    intro s0 acc0
    simp only [List.foldl_cons, seqStep, sessionAfter, turnEntries,
      List.foldl_cons] at ih ⊢
    rw [ih]
    simp [sessionAfter, List.append_assoc]

theorem turnEntries_map_message {σ : Type}
    (detect : σ → String → σ × TurnResult) (tag : String) :
    ∀ (msgs : List String) (s : σ),
      (turnEntries detect tag s msgs).map SeqEntry.message = msgs := by
  intro msgs
  induction msgs with
  | nil => intro s; rfl
  | cons m ms ih => intro s; simp [turnEntries, ih]

theorem turnEntries_map_type {σ : Type}
    (detect : σ → String → σ × TurnResult) (tag : String) :
    ∀ (msgs : List String) (s : σ),
      (turnEntries detect tag s msgs).map SeqEntry.entryType =
        msgs.map (fun _ => tag) := by
  intro msgs
  induction msgs with
  | nil => intro s; rfl
  | cons m ms ih => intro s; simp [turnEntries, ih]

/-- C5: for every session oracle and every non-empty pre- and post-prompt
list, the recorded transcript issues the messages in the order
pre ++ [main] ++ post with matching type tags, and the returned primary
result is exactly the one produced by the main question's turn (issued on the
session state reached after the pre-prompt turns). -/
theorem detectIntentWithMessageSequence_order {σ : Type}
    (detect : σ → String → σ × TurnResult) (s0 : σ)
    (pre : List String) (mainQ : String) (post : List String)
    (hpre : pre ≠ []) (hpost : post ≠ []) :
    (detectIntentWithMessageSequence detect s0 pre mainQ post).1.map
        SeqEntry.message = pre ++ [mainQ] ++ post ∧
    (detectIntentWithMessageSequence detect s0 pre mainQ post).1.map
        SeqEntry.entryType =
      pre.map (fun _ => "pre_prompt") ++ ["main_question"] ++
        post.map (fun _ => "post_prompt") ∧
    (detectIntentWithMessageSequence detect s0 pre mainQ post).2 =
      (detect (sessionAfter detect s0 pre) mainQ).2 := by
  unfold detectIntentWithMessageSequence
  dsimp only
  rw [foldl_seqStep, foldl_seqStep]
  refine ⟨?_, ?_, rfl⟩
  · simp [turnEntries_map_message, List.append_assoc]
  · simp [turnEntries_map_type, List.append_assoc]

/-- Witness for C5 at `pre = ["A","B"]`, `main = "Q"`, `post = ["C"]` with a
turn-counting oracle: the transcript is exactly A, B, Q, C and the primary
result is the main turn's. -/
theorem detectIntentWithMessageSequence_order_witness :
    (detectIntentWithMessageSequence
        (fun (n : ℕ) (_ : String) => (n + 1, TurnResult.mk s!"resp{n}" "ok"))
        0 ["A", "B"] "Q" ["C"]).1.map SeqEntry.message =
      ["A", "B"] ++ ["Q"] ++ ["C"] ∧
    (detectIntentWithMessageSequence
        (fun (n : ℕ) (_ : String) => (n + 1, TurnResult.mk s!"resp{n}" "ok"))
        0 ["A", "B"] "Q" ["C"]).1.map SeqEntry.entryType =
      ["A", "B"].map (fun _ => "pre_prompt") ++ ["main_question"] ++
        ["C"].map (fun _ => "post_prompt") ∧
    (detectIntentWithMessageSequence
        (fun (n : ℕ) (_ : String) => (n + 1, TurnResult.mk s!"resp{n}" "ok"))
        0 ["A", "B"] "Q" ["C"]).2 =
      (sessionAfter (fun (n : ℕ) (_ : String) =>
          (n + 1, TurnResult.mk s!"resp{n}" "ok")) 0 ["A", "B"] + 1,
        TurnResult.mk s!"resp2" "ok").2 := by
  have h := detectIntentWithMessageSequence_order
    (fun (n : ℕ) (_ : String) => (n + 1, TurnResult.mk s!"resp{n}" "ok"))
    0 ["A", "B"] "Q" ["C"] (by simp) (by simp)
  exact ⟨h.1, h.2.1, by rw [h.2.2]; decide⟩

/-! ### Batch failure isolation (`_process_dialogflow_batch` and persistence) -/

/-- The payload of a successful conversation as read by `execute_test_run`:
`response_text` and `execution_time_ms`. -/
structure DFOutcome where
  responseText : String
  executionTimeMs : ℕ
deriving DecidableEq, Repr

/-- One entry of the `results` list built by `_process_dialogflow_batch` /
`batch_detect_intent` for one question. -/
structure DFRecord where
  error : Option String
  executionTimeMs : ℕ
  responseText : String
deriving DecidableEq, Repr, Inhabited

/-- The per-question try/except of `_process_dialogflow_batch` (lines 307-329)
and the per-task exception mapping of `batch_detect_intent` (lines 1459-1467):
a conversation that raises becomes an error record with the captured message,
zero execution time and empty response text; a successful conversation passes
through. -/
def dfRecordOf : Except String DFOutcome → DFRecord
  | .ok r => ⟨none, r.executionTimeMs, r.responseText⟩
  | .error e => ⟨some e, 0, ""⟩

/-- The per-question loop of `_process_dialogflow_batch`: each question's
conversation outcome (oracle `conv`) is converted independently. -/
def processDialogflowBatch (conv : ℕ → Except String DFOutcome) (n : ℕ) :
    List DFRecord :=
  (List.range n).map fun i => dfRecordOf (conv i)

/-- One evaluation result as read by `execute_test_run` when persisting
(`evaluation_reasoning`, `parameter_scores`, `error`). -/
structure EvalRecord where
  parameterScores : List ParamScore
  evaluationReasoning : String
  error : Option String
deriving DecidableEq, Repr

/-- The fields of one persisted TestResult row relevant to isolation
(`execute_test_run` lines 198-240), with the derived overall score. -/
structure TestResultRow where
  questionIdx : ℕ
  actualAnswer : String
  evaluationReasoning : String
  executionTimeMs : ℕ
  errorMessage : Option String
  derivedOverall : Option ℤ
deriving DecidableEq, Repr, Inhabited

/-- Creation of one TestResult row in `execute_test_run` lines 198-240:
`actual_answer` and `execution_time_ms` from the conversation record,
`error_message = df_result.get("error") or eval_result.get("error")`, and the
overall score derived from the parameter scores. -/
def buildRow (i : ℕ) (df : DFRecord) (ev : EvalRecord) : TestResultRow :=
  { questionIdx := i
    actualAnswer := df.responseText
    evaluationReasoning := ev.evaluationReasoning
    executionTimeMs := df.executionTimeMs
    errorMessage := match df.error with | some e => some e | none => ev.error
    derivedOverall := aggregate ev.parameterScores }

/-- One chunk of `execute_test_run`: every question's conversation outcome is
converted by `_process_dialogflow_batch`, evaluated (oracle `ev`), and
persisted as its own TestResult row. -/
def executeChunk (conv : ℕ → Except String DFOutcome) (ev : ℕ → EvalRecord)
    (n : ℕ) : List TestResultRow :=
  (List.range n).map fun i => buildRow i (dfRecordOf (conv i)) (ev i)

theorem executeChunk_getD (conv : ℕ → Except String DFOutcome)
    (ev : ℕ → EvalRecord) (n i : ℕ) (hi : i < n) :
    (executeChunk conv ev n).getD i default =
      buildRow i (dfRecordOf (conv i)) (ev i) := by
  unfold executeChunk
  rw [List.getD_eq_getElem?_getD, List.getElem?_map, List.getElem?_range hi]
  rfl

/-- C6: if the conversation for question `i` in a chunk of `n` raises, the
persisted row for `i` carries the captured error message, zero execution time
and empty answer, while every other question's row is built from its own
conversation outcome and its own evaluation — one question's failure never
alters another question's row. -/
theorem executeChunk_isolation (conv : ℕ → Except String DFOutcome)
    (ev : ℕ → EvalRecord) (n i : ℕ) (e : String)
    (hi : i < n) (hfail : conv i = .error e) :
    (executeChunk conv ev n).length = n ∧
    ((executeChunk conv ev n).getD i default).errorMessage = some e ∧
    ((executeChunk conv ev n).getD i default).executionTimeMs = 0 ∧
    ((executeChunk conv ev n).getD i default).actualAnswer = "" ∧
    (∀ j, j < n → j ≠ i →
      (executeChunk conv ev n).getD j default =
        buildRow j (dfRecordOf (conv j)) (ev j)) := by
  refine ⟨by simp [executeChunk], ?_, ?_, ?_, ?_⟩
  · rw [executeChunk_getD conv ev n i hi, hfail]; rfl
  · rw [executeChunk_getD conv ev n i hi, hfail]; rfl
  · rw [executeChunk_getD conv ev n i hi, hfail]; rfl
  · intro j hj _
    exact executeChunk_getD conv ev n j hj

/-- Witness for C6: in a chunk of three questions where question 1 raises
"boom", row 1 records the failure with zero execution time, and rows 0 and 2
are persisted from their own outcomes. -/
theorem executeChunk_isolation_witness :
    (executeChunk
        (fun i => if i = 1 then .error "boom" else .ok ⟨s!"ans{i}", 100⟩)
        (fun _ => ⟨[⟨some 80, some 100⟩], "r", none⟩) 3).length = 3 ∧
    ((executeChunk
        (fun i => if i = 1 then .error "boom" else .ok ⟨s!"ans{i}", 100⟩)
        (fun _ => ⟨[⟨some 80, some 100⟩], "r", none⟩) 3).getD 1
          default).errorMessage = some "boom" ∧
    ((executeChunk
        (fun i => if i = 1 then .error "boom" else .ok ⟨s!"ans{i}", 100⟩)
        (fun _ => ⟨[⟨some 80, some 100⟩], "r", none⟩) 3).getD 1
          default).executionTimeMs = 0 ∧
    ((executeChunk
        (fun i => if i = 1 then .error "boom" else .ok ⟨s!"ans{i}", 100⟩)
        (fun _ => ⟨[⟨some 80, some 100⟩], "r", none⟩) 3).getD 1
          default).actualAnswer = "" ∧
    (∀ j, j < 3 → j ≠ 1 →
      (executeChunk
          (fun i => if i = 1 then .error "boom" else .ok ⟨s!"ans{i}", 100⟩)
          (fun _ => ⟨[⟨some 80, some 100⟩], "r", none⟩) 3).getD j default =
        buildRow j
          (dfRecordOf (if j = 1 then .error "boom" else .ok ⟨s!"ans{j}", 100⟩))
          ⟨[⟨some 80, some 100⟩], "r", none⟩) :=
  executeChunk_isolation
    (fun i => if i = 1 then .error "boom" else .ok ⟨s!"ans{i}", 100⟩)
    (fun _ => ⟨[⟨some 80, some 100⟩], "r", none⟩) 3 1 "boom"
    (by decide) rfl

/-! ### The chunked run loop of `execute_test_run` (progress, average score,
cancellation) -/

/-- The slicing `questions[i:i+batch_size]` for `i in range(0, len, batch_size)`
(lines 179-180).  A zero batch size would raise `ValueError` in Python and is
mapped to the empty chunk list; all theorems assume a positive batch size. -/
def chunksOf {α : Type} : ℕ → List α → List (List α)
  | _, [] => []
  | 0, _ :: _ => []
  | b + 1, x :: xs => (x :: xs).take (b + 1) :: chunksOf (b + 1) (xs.drop b)
termination_by _ l => l.length
decreasing_by
  simp only [List.length_drop, List.length_cons]
  omega

/-- Per-chunk accumulation of `total_score` and `successful_evaluations`
(lines 242-245): each question whose computed overall score is non-`None`
contributes its score and a count of one. -/
def chunkTotals : List (Option ℤ) → ℤ × ℕ
  | [] => (0, 0)
  | q :: qs =>
    let acc := chunkTotals qs
    match q with
    | some s => (s + acc.1, acc.2 + 1)
    | none => acc

/-- One committed progress snapshot of the TestRun row
(`completed_questions`, `average_score`) at a chunk boundary (lines 249-254). -/
structure Snapshot where
  completedQuestions : ℕ
  averageScore : Option ℤ
deriving DecidableEq, Repr

/-- The terminal state of the run after the loop (lines 261-265). -/
structure RunFinal where
  completedQuestions : ℕ
  averageScore : Option ℤ
  status : String
deriving DecidableEq, Repr

/-- The chunk loop of `execute_test_run` (lines 179-265).  Each chunk is
processed, its questions' derived overall scores are folded into the running
totals, progress and average score are committed (one `Snapshot` per chunk),
and then the run status is re-read: `cancelAfter idx = true` models an
external actor having set the status to `cancelled` by the time of the
refresh after chunk `idx`, which breaks the loop with terminal status
`cancelled`; otherwise, after the last chunk, the status becomes
`completed`. -/
def execLoop (cancelAfter : ℕ → Bool) :
    List (List (Option ℤ)) → ℕ → ℕ → ℤ → ℕ → Option ℤ →
      List Snapshot × RunFinal
  | [], _, completed, _, _, avg => ([], ⟨completed, avg, "completed"⟩)
  | c :: rest, idx, completed, ts, se, avg =>
    let ts' := ts + (chunkTotals c).1
    let se' := se + (chunkTotals c).2
    let completed' := completed + c.length
    let avg' := if 0 < se' then some (Int.tdiv ts' (se' : ℤ)) else avg
    let snap : Snapshot := ⟨completed', avg'⟩
    if cancelAfter idx then ([snap], ⟨completed', avg', "cancelled"⟩)
    else
      let nxt := execLoop cancelAfter rest (idx + 1) completed' ts' se' avg'
      (snap :: nxt.1, nxt.2)

/-- The whole run loop on the question set's derived overall scores, from the
initial state (`completed_questions = 0`, `average_score = NULL`,
`total_score = 0`, `successful_evaluations = 0`). -/
def executeRunChunks (entries : List (Option ℤ)) (batchSize : ℕ)
    (cancelAfter : ℕ → Bool) : List Snapshot × RunFinal :=
  execLoop cancelAfter (chunksOf batchSize entries) 0 0 0 0 none

/-- Number of questions processed through chunk `i` (chunks `0..i`). -/
def completedThrough (chunks : List (List (Option ℤ))) (i : ℕ) : ℕ :=
  ((chunks.take (i + 1)).map List.length).sum

/-- The derived overall scores present among the questions of chunks `0..i`. -/
def scoresThrough (chunks : List (List (Option ℤ))) (i : ℕ) : List ℤ :=
  ((chunks.take (i + 1)).flatten).filterMap id

theorem chunkTotals_spec (c : List (Option ℤ)) :
    chunkTotals c = ((c.filterMap id).sum, (c.filterMap id).length) := by
  induction c with
  | nil => rfl
  | cons q qs ih =>
    cases q <;> simp [chunkTotals, ih, List.filterMap_cons]

theorem chunksOf_join {α : Type} (bs : ℕ) (hbs : 0 < bs) (l : List α) :
    (chunksOf bs l).flatten = l := by
  induction bs, l using chunksOf.induct with
  | case1 bs => simp [chunksOf]
  | case2 x xs => omega
  | case3 b x xs ih =>
    rw [chunksOf]
    simp only [List.flatten_cons]
    rw [ih (Nat.succ_pos b)]
    rw [show xs.drop b = (x :: xs).drop (b + 1) from rfl]
    exact List.take_append_drop (b + 1) (x :: xs)

theorem execLoop_snapshot (cancelAfter : ℕ → Bool) :
    ∀ (chunks : List (List (Option ℤ))) (idx completed : ℕ) (ts : ℤ) (se : ℕ)
      (avg : Option ℤ) (i : ℕ)
      (hi : i < (execLoop cancelAfter chunks idx completed ts se avg).1.length),
      (execLoop cancelAfter chunks idx completed ts se avg).1.get ⟨i, hi⟩ =
        ⟨completed + completedThrough chunks i,
         if 0 < se + (scoresThrough chunks i).length
         then some (Int.tdiv (ts + (scoresThrough chunks i).sum)
                             ((se + (scoresThrough chunks i).length : ℕ) : ℤ))
         else avg⟩ := by
  intro chunks
  induction chunks with
  | nil =>
    intro idx completed ts se avg i hi
    simp [execLoop] at hi
  | cons c rest ih =>
    intro idx completed ts se avg i hi
    by_cases hca : cancelAfter idx = true
    · have hsn :
          (execLoop cancelAfter (c :: rest) idx completed ts se avg).1 =
            [⟨completed + c.length,
              if 0 < se + (chunkTotals c).2
              then some (Int.tdiv (ts + (chunkTotals c).1)
                ((se + (chunkTotals c).2 : ℕ) : ℤ))
              else avg⟩] := by
        simp [execLoop, hca]
      rcases i with _ | j
      · rw [List.get_of_eq hsn]
        simp only [List.get]
        rw [chunkTotals_spec]
        simp [completedThrough, scoresThrough]
      · exfalso
        rw [hsn] at hi
        simp at hi
    · have hsn :
          (execLoop cancelAfter (c :: rest) idx completed ts se avg).1 =
            (⟨completed + c.length,
              if 0 < se + (chunkTotals c).2
              then some (Int.tdiv (ts + (chunkTotals c).1)
                ((se + (chunkTotals c).2 : ℕ) : ℤ))
              else avg⟩ : Snapshot) ::
            (execLoop cancelAfter rest (idx + 1) (completed + c.length)
              (ts + (chunkTotals c).1) (se + (chunkTotals c).2)
              (if 0 < se + (chunkTotals c).2
               then some (Int.tdiv (ts + (chunkTotals c).1)
                 ((se + (chunkTotals c).2 : ℕ) : ℤ))
               else avg)).1 := by
        simp [execLoop, hca]
      rcases i with _ | j
      · rw [List.get_of_eq hsn]
        simp only [List.get]
        rw [chunkTotals_spec]
        simp [completedThrough, scoresThrough]
      · have hj : j < (execLoop cancelAfter rest (idx + 1) (completed + c.length)
            (ts + (chunkTotals c).1) (se + (chunkTotals c).2)
            (if 0 < se + (chunkTotals c).2
             then some (Int.tdiv (ts + (chunkTotals c).1)
               ((se + (chunkTotals c).2 : ℕ) : ℤ))
             else avg)).1.length := by
          rw [hsn] at hi
          simpa using hi
        rw [List.get_of_eq hsn]
        simp only [List.get]
        rw [ih (idx + 1) (completed + c.length)
          (ts + (chunkTotals c).1) (se + (chunkTotals c).2) _ j hj]
        rw [chunkTotals_spec]
        have hct : completedThrough (c :: rest) (j + 1) =
            c.length + completedThrough rest j := by
          simp [completedThrough, List.take_succ_cons]
        have hst : scoresThrough (c :: rest) (j + 1) =
            c.filterMap id ++ scoresThrough rest j := by
          simp [scoresThrough, List.take_succ_cons]
        rw [hct, hst]
        congr 1
        · omega
        · simp only [List.length_append, List.sum_append]
          by_cases hpos :
              0 < se + (c.filterMap id).length + (scoresThrough rest j).length
          · rw [if_pos (by simpa using hpos), if_pos (by omega)]
            congr 1
            rw [show ts + (List.filterMap id c).sum + (scoresThrough rest j).sum
                = ts + ((List.filterMap id c).sum + (scoresThrough rest j).sum)
              by ring]
            rw [show se + (List.filterMap id c).length
                  + (scoresThrough rest j).length
                = se + ((List.filterMap id c).length
                  + (scoresThrough rest j).length)
              by omega]
          · rw [if_neg (by simpa using hpos), if_neg (by omega)]
            have h0 : (c.filterMap id).length = 0 ∧ se = 0 := by omega
            rw [if_neg (by omega)]

theorem execLoop_cancelled (cancelAfter : ℕ → Bool) :
    ∀ (chunks : List (List (Option ℤ))) (k idx completed : ℕ) (ts : ℤ)
      (se : ℕ) (avg : Option ℤ),
      k < chunks.length →
      (∀ c, c < k → cancelAfter (idx + c) = false) →
      cancelAfter (idx + k) = true →
      (execLoop cancelAfter chunks idx completed ts se avg).2.status =
          "cancelled" ∧
      (execLoop cancelAfter chunks idx completed ts se avg).2.completedQuestions
          = completed + completedThrough chunks k ∧
      (execLoop cancelAfter chunks idx completed ts se avg).1.length = k + 1 := by
  intro chunks
  induction chunks with
  | nil =>
    intro k idx completed ts se avg hk
    simp at hk
  | cons c rest ih =>
    intro k idx completed ts se avg hk hbefore hcancel
    cases k with
    | zero =>
      have hca : cancelAfter idx = true := by simpa using hcancel
      refine ⟨?_, ?_, ?_⟩ <;> simp [execLoop, hca, completedThrough]
    | succ j =>
      have hca : cancelAfter idx = false := by
        simpa using hbefore 0 (Nat.succ_pos j)
      have hstep : execLoop cancelAfter (c :: rest) idx completed ts se avg =
          ((⟨completed + c.length,
              if 0 < se + (chunkTotals c).2
              then some (Int.tdiv (ts + (chunkTotals c).1)
                ((se + (chunkTotals c).2 : ℕ) : ℤ))
              else avg⟩ : Snapshot) ::
            (execLoop cancelAfter rest (idx + 1) (completed + c.length)
              (ts + (chunkTotals c).1) (se + (chunkTotals c).2)
              (if 0 < se + (chunkTotals c).2
               then some (Int.tdiv (ts + (chunkTotals c).1)
                 ((se + (chunkTotals c).2 : ℕ) : ℤ))
               else avg)).1,
           (execLoop cancelAfter rest (idx + 1) (completed + c.length)
              (ts + (chunkTotals c).1) (se + (chunkTotals c).2)
              (if 0 < se + (chunkTotals c).2
               then some (Int.tdiv (ts + (chunkTotals c).1)
                 ((se + (chunkTotals c).2 : ℕ) : ℤ))
               else avg)).2) := by
        simp [execLoop, hca]
      have ihh := ih j (idx + 1) (completed + c.length) (ts + (chunkTotals c).1)
        (se + (chunkTotals c).2)
        (if 0 < se + (chunkTotals c).2
         then some (Int.tdiv (ts + (chunkTotals c).1)
           ((se + (chunkTotals c).2 : ℕ) : ℤ))
         else avg)
        (by simpa using hk)
        (fun d hd => by
          rw [show idx + 1 + d = idx + (d + 1) by omega]
          exact hbefore (d + 1) (by omega))
        (by
          rw [show idx + 1 + j = idx + (j + 1) by omega]
          exact hcancel)
      obtain ⟨h1, h2, h3⟩ := ihh
      refine ⟨?_, ?_, ?_⟩
      · rw [hstep]; exact h1
      · rw [hstep]
        rw [h2]
        have hct : completedThrough (c :: rest) (j + 1) =
            c.length + completedThrough rest j := by
          simp [completedThrough, List.take_succ_cons]
        rw [hct]
        omega
      · rw [hstep]
        simp only [List.length_cons]
        omega

/-- C7: if the external cancellation request is first observed at the status
re-read after chunk `k` was persisted, the run stops with terminal status
`cancelled`, the final `completed_questions` is exactly the number of
questions processed through chunk `k`, and exactly `k + 1` chunk commits
happened (no further chunk was started). -/
theorem cancellation_boundary (entries : List (Option ℤ)) (bs : ℕ)
    (cancelAfter : ℕ → Bool) (k : ℕ)
    (hk : k < (chunksOf bs entries).length)
    (hbefore : ∀ c, c < k → cancelAfter c = false)
    (hcancel : cancelAfter k = true) :
    (executeRunChunks entries bs cancelAfter).2.status = "cancelled" ∧
    (executeRunChunks entries bs cancelAfter).2.completedQuestions =
      completedThrough (chunksOf bs entries) k ∧
    (executeRunChunks entries bs cancelAfter).1.length = k + 1 := by
  have h := execLoop_cancelled cancelAfter (chunksOf bs entries) k 0 0 0 0 none
    hk
    (fun c hc => by rw [Nat.zero_add]; exact hbefore c hc)
    (by rw [Nat.zero_add]; exact hcancel)
  simpa [executeRunChunks] using h

/-- Witness for C7: two single-question chunks, cancellation observed after
chunk 0 — the run ends cancelled with one question completed and one commit. -/
theorem cancellation_boundary_witness :
    (executeRunChunks [some 80, some 90] 1 (fun c => c == 0)).2.status =
        "cancelled" ∧
    (executeRunChunks [some 80, some 90] 1 (fun c => c == 0)).2.completedQuestions
        = completedThrough (chunksOf 1 [some 80, some 90]) 0 ∧
    (executeRunChunks [some 80, some 90] 1 (fun c => c == 0)).1.length = 0 + 1 :=
  cancellation_boundary [some 80, some 90] 1 (fun c => c == 0) 0
    (by simp [chunksOf])
    (fun c hc => absurd hc (Nat.not_lt_zero c))
    rfl

/-- C8 counterexample: a chunk with derived overall scores 80 and 85 commits
`average_score = int(165 / 2) = 82`, while the exact mean of the scores is
165/2 = 82.5 — the committed value is the truncated mean, not the mean. -/
theorem average_score_mean_counterexample :
    (executeRunChunks [some 80, some 85] 10 (fun _ => false)).1.map
        Snapshot.averageScore = [some 82] ∧
    ((82 : ℚ) ≠ (80 + 85) / 2) := by
  constructor
  · have hch : chunksOf 10 [some (80 : ℤ), some 85] = [[some 80, some 85]] := by
      simp [chunksOf]
    unfold executeRunChunks
    rw [hch]
    decide
  · norm_num

/-- C8 (amended): after each chunk, the run's `average_score` is updated and
committed, and at the `i`-th commit it equals the integer-truncated mean
`int(total_score / successful_evaluations)` of the derived overall scores of
the completed TestResults that have one (and stays `NULL` while none has
one). -/
theorem average_score_truncated_mean (entries : List (Option ℤ)) (bs : ℕ)
    (cancelAfter : ℕ → Bool) (i : ℕ)
    (hi : i < (executeRunChunks entries bs cancelAfter).1.length) :
    ((executeRunChunks entries bs cancelAfter).1.get ⟨i, hi⟩).averageScore =
      if 0 < (scoresThrough (chunksOf bs entries) i).length
      then some (Int.tdiv (scoresThrough (chunksOf bs entries) i).sum
        (((scoresThrough (chunksOf bs entries) i).length : ℕ) : ℤ))
      else none := by
  have h := execLoop_snapshot cancelAfter (chunksOf bs entries) 0 0 0 0 none i hi
  rw [show ((executeRunChunks entries bs cancelAfter).1.get ⟨i, hi⟩) =
      ((execLoop cancelAfter (chunksOf bs entries) 0 0 0 0 none).1.get ⟨i, hi⟩)
    from rfl]
  rw [h]
  simp

/-- Witness for the amended C8 theorem: one chunk of scores 80 and 85 commits
the truncated mean 82. -/
theorem average_score_truncated_mean_witness :
    ((executeRunChunks [some 80, some 85] 10 (fun _ => false)).1.get
        ⟨0, by simp [executeRunChunks, chunksOf, execLoop]⟩).averageScore =
      if 0 < (scoresThrough (chunksOf 10 [some 80, some 85]) 0).length
      then some (Int.tdiv (scoresThrough (chunksOf 10 [some 80, some 85]) 0).sum
        (((scoresThrough (chunksOf 10 [some 80, some 85]) 0).length : ℕ) : ℤ))
      else none :=
  average_score_truncated_mean [some 80, some 85] 10 (fun _ => false) 0
    (by simp [executeRunChunks, chunksOf, execLoop])

theorem sum_take_mono (l : List ℕ) :
    ∀ m n, m ≤ n → (l.take m).sum ≤ (l.take n).sum := by
  induction l with
  | nil => intro m n _; simp
  | cons x xs ih =>
    intro m n h
    cases m with
    | zero => simp
    | succ a =>
      cases n with
      | zero => exact absurd h (by omega)
      | succ b =>
        simp only [List.take_succ_cons, List.sum_cons]
        exact Nat.add_le_add_left (ih a b (by omega)) x

theorem sum_take_le_sum (l : List ℕ) (m : ℕ) : (l.take m).sum ≤ l.sum := by
  induction l generalizing m with
  | nil => simp
  | cons x xs ih =>
    cases m with
    | zero => simp
    | succ a =>
      simp only [List.take_succ_cons, List.sum_cons]
      exact Nat.add_le_add_left (ih a) x

/-- C9: over a run's lifetime, the sequence of committed `completed_questions`
values is monotonically non-decreasing, and no committed value ever exceeds
the total number of questions. -/
theorem progress_monotone_bounded (entries : List (Option ℤ)) (bs : ℕ)
    (cancelAfter : ℕ → Bool) (hbs : 0 < bs) :
    (∀ i j (hi : i < (executeRunChunks entries bs cancelAfter).1.length)
        (hj : j < (executeRunChunks entries bs cancelAfter).1.length),
      i ≤ j →
      ((executeRunChunks entries bs cancelAfter).1.get ⟨i, hi⟩).completedQuestions
        ≤ ((executeRunChunks entries bs cancelAfter).1.get
            ⟨j, hj⟩).completedQuestions) ∧
    (∀ s ∈ (executeRunChunks entries bs cancelAfter).1,
      s.completedQuestions ≤ entries.length) := by
  have hget : ∀ (i : ℕ)
      (hi : i < (executeRunChunks entries bs cancelAfter).1.length),
      ((executeRunChunks entries bs cancelAfter).1.get ⟨i, hi⟩).completedQuestions
        = completedThrough (chunksOf bs entries) i := by
    intro i hi
    have h := execLoop_snapshot cancelAfter (chunksOf bs entries) 0 0 0 0 none i hi
    rw [show ((executeRunChunks entries bs cancelAfter).1.get ⟨i, hi⟩) =
        ((execLoop cancelAfter (chunksOf bs entries) 0 0 0 0 none).1.get ⟨i, hi⟩)
      from rfl]
    rw [h]
    simp
  have hbound : ∀ i, completedThrough (chunksOf bs entries) i ≤ entries.length := by
    intro i
    have h1 : completedThrough (chunksOf bs entries) i =
        (((chunksOf bs entries).map List.length).take (i + 1)).sum := by
      simp [completedThrough, List.map_take]
    have h2 : ((chunksOf bs entries).map List.length).sum = entries.length := by
      rw [← List.length_flatten, chunksOf_join bs hbs]
    rw [h1, ← h2]
    exact sum_take_le_sum _ _
  refine ⟨?_, ?_⟩
  · intro i j hi hj hij
    rw [hget i hi, hget j hj]
    have h1 : ∀ m, completedThrough (chunksOf bs entries) m =
        (((chunksOf bs entries).map List.length).take (m + 1)).sum := by
      intro m; simp [completedThrough, List.map_take]
    rw [h1, h1]
    exact sum_take_mono _ _ _ (by omega)
  · intro s hs
    obtain ⟨⟨i, hi⟩, rfl⟩ := List.mem_iff_get.mp hs
    rw [hget i hi]
    exact hbound i

/-- Witness for C9, at a three-question run with batch size 2 and no
cancellation. -/
theorem progress_monotone_bounded_witness :
    (∀ i j (hi : i < (executeRunChunks [some 80, some 90, none] 2
          (fun _ => false)).1.length)
        (hj : j < (executeRunChunks [some 80, some 90, none] 2
          (fun _ => false)).1.length),
      i ≤ j →
      ((executeRunChunks [some 80, some 90, none] 2
          (fun _ => false)).1.get ⟨i, hi⟩).completedQuestions
        ≤ ((executeRunChunks [some 80, some 90, none] 2
            (fun _ => false)).1.get ⟨j, hj⟩).completedQuestions) ∧
    (∀ s ∈ (executeRunChunks [some 80, some 90, none] 2 (fun _ => false)).1,
      s.completedQuestions ≤ ([some 80, some 90, none] : List (Option ℤ)).length) :=
  progress_monotone_bounded [some 80, some 90, none] 2 (fun _ => false)
    (by decide)

/-! ### Default even-weight distribution (`_get_default_evaluation_parameters`) -/

/-- An active EvaluationParameter row as read by
`_get_default_evaluation_parameters`. -/
structure EvalParameter where
  id : ℕ
  name : String
  promptTemplate : String
deriving DecidableEq, Repr

/-- One entry of the loaded evaluation-parameter configuration. -/
structure ParamConfig where
  id : ℕ
  parameterType : String
  weight : ℕ
  enabled : Bool
  promptTemplate : String
deriving DecidableEq, Repr

/-- `parameter.name.lower().replace(' ', '_')` (ASCII fragment). -/
def paramTypeOf (name : String) : String :=
  (name.toList.map fun c =>
    let lc := c.toLower
    if lc = ' ' then '_' else lc).asString

/-- `_get_default_evaluation_parameters` (lines 75-109): when neither a
run-specific nor a user default configuration exists, distribute 100 evenly
over the active parameters — each gets `100 // n`, the first `100 % n` get one
extra unit, and every entry is enabled. -/
def getDefaultEvaluationParameters (defaultParams : List EvalParameter) :
    List ParamConfig :=
  if defaultParams.isEmpty then []
  else
    let weightPerParam := 100 / defaultParams.length
    let remainingWeight := 100 % defaultParams.length
    defaultParams.enum.map fun ip =>
      ⟨ip.2.id, paramTypeOf ip.2.name,
       weightPerParam + (if ip.1 < remainingWeight then 1 else 0),
       true, ip.2.promptTemplate⟩

theorem sum_range_even (q r : ℕ) :
    ∀ n, ((List.range n).map fun i => q + if i < r then 1 else 0).sum =
      q * n + min r n := by
  intro n
  induction n with
  | zero => simp
  | succ m ih =>
    rw [List.range_succ]
    simp only [List.map_append, List.sum_append, List.map_cons, List.sum_cons,
      List.map_nil, List.sum_nil]
    rw [ih]
    rw [Nat.mul_succ]
    rw [Nat.min_def, Nat.min_def]
    split_ifs <;> omega

/-- C10: for a nonempty set of `n` active parameters and no stored
configuration, the loaded even-weight distribution gives each parameter
`100 / n` (with one extra unit for each of the first `100 % n`), marks every
entry enabled, and the weights sum to exactly 100. -/
theorem default_parameters_even_weights (ps : List EvalParameter)
    (hne : ps ≠ []) :
    (getDefaultEvaluationParameters ps).length = ps.length ∧
    (∀ i (hi : i < (getDefaultEvaluationParameters ps).length),
      ((getDefaultEvaluationParameters ps).get ⟨i, hi⟩).weight =
        100 / ps.length + (if i < 100 % ps.length then 1 else 0) ∧
      ((getDefaultEvaluationParameters ps).get ⟨i, hi⟩).enabled = true) ∧
    ((getDefaultEvaluationParameters ps).map ParamConfig.weight).sum = 100 := by
  have hie : ps.isEmpty = false := by simp [List.isEmpty_iff, hne]
  have hn : 0 < ps.length := List.length_pos.mpr hne
  refine ⟨?_, ?_, ?_⟩
  · simp [getDefaultEvaluationParameters, hie]
  · intro i hi
    constructor <;>
      simp [getDefaultEvaluationParameters, hie, List.get_eq_getElem,
        List.getElem_map, List.getElem_enum]
  · have hmap : (getDefaultEvaluationParameters ps).map ParamConfig.weight =
        (List.range ps.length).map
          (fun i => 100 / ps.length + if i < 100 % ps.length then 1 else 0) := by
      simp only [getDefaultEvaluationParameters, hie, Bool.false_eq_true,
        if_false, List.map_map]
      rw [show ((fun p : ParamConfig => p.weight) ∘ fun ip : ℕ × EvalParameter =>
          (⟨ip.2.id, paramTypeOf ip.2.name,
            100 / ps.length + (if ip.1 < 100 % ps.length then 1 else 0),
            true, ip.2.promptTemplate⟩ : ParamConfig)) =
        ((fun i => 100 / ps.length + if i < 100 % ps.length then 1 else 0) ∘
          Prod.fst) from rfl]
      rw [← List.map_map, List.enum_map_fst]
    rw [hmap, sum_range_even]
    have hmin : min (100 % ps.length) ps.length = 100 % ps.length :=
      Nat.min_eq_left (le_of_lt (Nat.mod_lt _ hn))
    rw [hmin]
    have hdm := Nat.div_add_mod 100 ps.length
    rw [Nat.mul_comm (100 / ps.length) ps.length]
    omega

/-- Witness for C10 at three active parameters: weights 34, 33, 33 summing to
100, all enabled. -/
theorem default_parameters_even_weights_witness :
    (getDefaultEvaluationParameters
      [⟨1, "Similarity Score", "t1"⟩, ⟨2, "Empathy Level", "t2"⟩,
       ⟨3, "Completeness", "t3"⟩]).length =
      ([⟨1, "Similarity Score", "t1"⟩, ⟨2, "Empathy Level", "t2"⟩,
        ⟨3, "Completeness", "t3"⟩] : List EvalParameter).length ∧
    (∀ i (hi : i < (getDefaultEvaluationParameters
        [⟨1, "Similarity Score", "t1"⟩, ⟨2, "Empathy Level", "t2"⟩,
         ⟨3, "Completeness", "t3"⟩]).length),
      ((getDefaultEvaluationParameters
        [⟨1, "Similarity Score", "t1"⟩, ⟨2, "Empathy Level", "t2"⟩,
         ⟨3, "Completeness", "t3"⟩]).get ⟨i, hi⟩).weight =
        100 / ([⟨1, "Similarity Score", "t1"⟩, ⟨2, "Empathy Level", "t2"⟩,
          ⟨3, "Completeness", "t3"⟩] : List EvalParameter).length +
          (if i < 100 % ([⟨1, "Similarity Score", "t1"⟩,
            ⟨2, "Empathy Level", "t2"⟩,
            ⟨3, "Completeness", "t3"⟩] : List EvalParameter).length
           then 1 else 0) ∧
      ((getDefaultEvaluationParameters
        [⟨1, "Similarity Score", "t1"⟩, ⟨2, "Empathy Level", "t2"⟩,
         ⟨3, "Completeness", "t3"⟩]).get ⟨i, hi⟩).enabled = true) ∧
    ((getDefaultEvaluationParameters
      [⟨1, "Similarity Score", "t1"⟩, ⟨2, "Empathy Level", "t2"⟩,
       ⟨3, "Completeness", "t3"⟩]).map ParamConfig.weight).sum = 100 :=
  default_parameters_even_weights
    [⟨1, "Similarity Score", "t1"⟩, ⟨2, "Empathy Level", "t2"⟩,
     ⟨3, "Completeness", "t3"⟩] (by simp)
